import Mathlib

/-!
Verification development for the federated training coordination engine in
`torchlib/utils.py` (repository gkaissis/4P).

The Python source is shallowly embedded: shared `multiprocessing.Manager`
dictionaries become association lists, models become lists of exact rationals
(one entry per flattened parameter), and fallible Python code returns
`Except String`.  The coordinator and worker loops are embedded as explicit
step functions / recursions over an environment that supplies the reads of
shared state performed by the other processes.
-/

namespace Torchlib

/-- ModelState: a model's trainable parameters, flattened to a list of exact
rationals (one per scalar parameter). -/
abbrev Model := List ℚ

/-- syft's `scale_model` (external dependency of `federated_avg`): multiply
every parameter of the model by the scalar `w`. -/
def scale_model (m : Model) (w : ℚ) : Model := m.map (fun p => w * p)

/-- syft's `add_model` (external dependency of `federated_avg`): parameter-wise
sum of two models with identical shape. -/
def add_model (a b : Model) : Model := List.zipWith (fun x y => x + y) a b

/-- Lookup in a Python-dict embedded as an association list of weights
(`weights[id]`, first matching key). -/
def lookupWeight (ws : List (String × ℚ)) (id : String) : Option ℚ :=
  (ws.find? (fun p => p.1 == id)).map (fun p => p.2)

/-- Python truthiness of the `weights` argument of `federated_avg`
(`if weights:`): `None` and the empty dict are falsy, a non-empty dict is
truthy. -/
def weightsTruthy : Option (List (String × ℚ)) → Bool
  | none => false
  | some ws => !ws.isEmpty

/-- Loop body of the weighted branch of `federated_avg`
(utils.py lines 401-408): `model = None`, then for each `(id, partial_model)`
in insertion order, scale by `weights[id]` (a missing key raises `KeyError`)
and accumulate with `add_model`; the accumulator stays `None` when there are
no models, mirroring `if model:` which is a `None`-test for torch modules. -/
def fedAvgWeightedLoop (ws : List (String × ℚ)) :
    List (String × Model) → Option Model → Except String (Option Model)
  | [], acc => .ok acc
  | (id, pm) :: rest, acc =>
    match lookupWeight ws id with
    | none => .error ("KeyError")
    | some w =>
      let scaled := scale_model pm w
      match acc with
      | some m => fedAvgWeightedLoop ws rest (some (add_model m scaled))
      | none => fedAvgWeightedLoop ws rest (some scaled)

/-- `federated_avg` (utils.py lines 389-416).  With truthy `weights` it runs
the weighted accumulation loop (returning `None` for an empty models dict);
otherwise it takes `model_list[0]` (an `IndexError` on an empty dict), sums the
rest with `add_model` and scales by `1 / nr_models`. -/
def federated_avg (models : List (String × Model))
    (weights : Option (List (String × ℚ))) : Except String (Option Model) :=
  if weightsTruthy weights then
    fedAvgWeightedLoop (weights.getD []) models none
  else
    match models with
    | [] => .error ("IndexError")
    | (_, m0) :: rest =>
      let nr : ℚ := (models.length : ℚ)
      let summed := rest.foldl (fun acc p => add_model acc p.2) m0
      .ok (some (scale_model summed (1 / nr)))

/-- Weight computation of `train_federated` (utils.py lines 474-485): totals
the per-worker batch counts taken from `progress_dict`, and builds `w_dict`
either proportional to each worker's batch count (weighted averaging) or
uniform `1.0 / len(progress_dict)`. -/
def computeWDict (counts : List (String × Nat)) (weighted_averaging : Bool) :
    List (String × ℚ) :=
  let total : ℚ := (((counts.map (fun p => p.2)).sum : Nat) : ℚ)
  if weighted_averaging then
    counts.map (fun p => (p.1, (p.2 : ℚ) / total))
  else
    counts.map (fun p => (p.1, 1 / (counts.length : ℚ)))

/-- CoordinationState as seen by the synchronizer: the shared Manager dicts
`result_dict` (worker id to last published model, `None` before the first
publication), `waiting_for_sync_dict`, the `sync_dict["model"]` slot, and the
`sync_completed` flag. -/
structure SyncState where
  result_dict : List (String × Option Model)
  waiting : List (String × Bool)
  merged : Option Model
  sync_completed : Bool
deriving DecidableEq

/-- The copy loop `models = {}; for id, worker_model in result_dict.items():
models[id] = worker_model` (utils.py lines 591-593).  A `None` entry is
surfaced as the `AttributeError` that Python would raise when the copied
`None` reaches `scale_model` inside `federated_avg`. -/
def collectModels : List (String × Option Model) → Except String (List (String × Model))
  | [] => .ok []
  | (_, none) :: _ => .error ("AttributeError")
  | (id, some m) :: rest => (collectModels rest).map (fun ms => (id, m) :: ms)

/-- One resolution pass of `synchronizer` (utils.py lines 585-597 and 652):
branch on `len(result_dict)` — exactly one entry copies that entry into
`sync_dict["model"]`, zero entries is `pass`, otherwise `federated_avg` of the
whole `result_dict` with the configured weights — then set every
`waiting_for_sync_dict` value to `False` and `sync_completed` to `True`. -/
def resolveRound (weights : List (String × ℚ)) (s : SyncState) :
    Except String SyncState :=
  let afterMerge : Except String SyncState :=
    if s.result_dict.length == 1 then
      .ok (match s.result_dict with
           | [(_, m)] => { s with merged := m }
           | _ => s)
    else if s.result_dict.length == 0 then
      .ok s
    else
      match collectModels s.result_dict with
      | .error e => .error e
      | .ok models =>
        match federated_avg models (some weights) with
        | .error e => .error e
        | .ok avg => .ok { s with merged := avg }
  match afterMerge with
  | .error e => .error e
  | .ok s1 =>
    .ok { s1 with waiting := s1.waiting.map (fun p => (p.1, false)),
                  sync_completed := true }

/-- Python `all(waiting_for_sync_dict.values())` (empty dict gives `True`). -/
def allWaitingTrue (w : List (String × Bool)) : Bool := w.all (fun p => p.2)

/-- Environment of the synchronizer process: the values of the shared `stop`
flag and of `waiting_for_sync_dict` observed at each successive read, covering
every interleaving of the workers' and orchestrator's writes. -/
structure CoordEnv where
  stop : Nat → Bool
  waiting : Nat → List (String × Bool)

/-- Program counter of the synchronizer loop (utils.py lines 581-652):
the outer `while not stop.value` check, the inner wait-loop check, the
resolution pass, and termination. -/
inductive CoordPC
  | outerCheck
  | innerCheck
  | resolveStep
  | halted
deriving DecidableEq

/-- Synchronizer process state: program counter, a read counter `t` advanced at
every step, the number of resolution passes performed, and the durations of the
sleeps executed so far. -/
structure CState where
  pc : CoordPC
  t : Nat
  res : Nat
  sleeps : List ℚ
deriving DecidableEq

/-- One step of the `synchronizer` control loop (utils.py lines 581-652).
The outer check exits when `stop.value` is true; the inner check leaves the
wait loop when `all(waiting_for_sync_dict.values())` or `stop.value` holds and
otherwise executes `sleep(0.1)` — the literal `0.1` from line 583; the
`wait_interval` parameter of `synchronizer` is accepted but never used there. -/
def coordStep (wait_interval : ℚ) (env : CoordEnv) (c : CState) : CState :=
  match c.pc with
  | .outerCheck =>
    if env.stop c.t then { c with pc := .halted }
    else { c with pc := .innerCheck, t := c.t + 1 }
  | .innerCheck =>
    if allWaitingTrue (env.waiting c.t) || env.stop c.t then
      { c with pc := .resolveStep, t := c.t + 1 }
    else
      { c with t := c.t + 1, sleeps := c.sleeps ++ [(1 : ℚ) / 10] }
  | .resolveStep => { c with pc := .outerCheck, res := c.res + 1, t := c.t + 1 }
  | .halted => c

/-- Iterate `coordStep` for `k` steps. -/
def coordRun (wait_interval : ℚ) (env : CoordEnv) : Nat → CState → CState
  | 0, c => c
  | k + 1, c => coordRun wait_interval env k (coordStep wait_interval env c)

/-- Keys of a worker's `loss_dict[worker.id]` entry: per-batch indices and the
closing literal key used at completion. -/
inductive LossKey
  | batch (i : Nat)
  | final
deriving DecidableEq

/-- Python dict assignment `d[k] = v` on an association list: replace the first
binding of `k`, or append a fresh binding. -/
def dictInsert (k : LossKey) (v : ℚ) : List (LossKey × ℚ) → List (LossKey × ℚ)
  | [] => [(k, v)]
  | p :: rest => if p.1 = k then (k, v) :: rest else p :: dictInsert k v rest

/-- Python dict read `d[k]` on an association list (first binding wins). -/
def dictLookup (k : LossKey) : List (LossKey × ℚ) → Option ℚ
  | [] => none
  | p :: rest => if p.1 = k then some p.2 else dictLookup k rest

/-- Configuration fields of `Arguments` consumed by `train_on_server`. -/
structure WArgs where
  sync_every_n_batch : Int
  wait_interval : ℚ
  keep_optim_dict : Bool
deriving DecidableEq

/-- Environment of one worker process: for its `r`-th synchronization round,
the merged model found in `sync_dict["model"]` on wake, and the number of
failed polls of `sync_completed` before it is observed true. -/
structure WorkerEnv where
  merged : Nat → Model
  polls : Nat → Nat

/-- Observable actions of `train_on_server`, in program order: writes to the
shared dicts, the poll sleeps of the barrier wait, the adoption of the merged
model, the optional optimizer re-creation, and one local optimization step. -/
inductive WEvent
  | progressW (i L : Nat)
  | publishModel (m : Model)
  | recordLoss (k : LossKey) (v : ℚ)
  | setSyncCompleted (b : Bool)
  | setWaiting (b : Bool)
  | pollSleep (d : ℚ)
  | loadMerged (m : Model)
  | reinitOptim
  | localStep (i : Nat)
  | deleteWaiting
deriving DecidableEq

/-- The slice of CoordinationState owned by one worker id: its `result_dict`
entry, its `loss_dict` sub-dict, its `progress_dict` pair, its
`waiting_for_sync_dict` entry (`none` once deleted), and the shared
`sync_completed` flag. -/
structure WShared where
  result : Option Model
  lossEntries : List (LossKey × ℚ)
  progress : Nat × Nat
  waitingEntry : Option Bool
  syncCompleted : Bool
deriving DecidableEq

/-- The per-worker slice of CoordinationState as `train_federated` initializes
it (utils.py lines 468-472): no model yet, empty loss dict, not waiting,
progress `(0, L)`. -/
def initWorkerShared (L : Nat) : WShared :=
  { result := none, lossEntries := [], progress := (0, L),
    waitingEntry := some false, syncCompleted := false }

/-- Worker-local mutable state: the current model, the accumulated `avg_loss`
list, and the count of synchronization rounds joined so far (used to index the
environment). -/
structure WLocal where
  model : Model
  avgLoss : List ℚ
  syncRound : Nat
deriving DecidableEq

/-- The synchronization guard of `train_on_server` (utils.py lines 677-681):
`batch_idx % args.sync_every_n_batch == 0 and batch_idx > 0`, with Python's
`%`; the test against 0 agrees with `Int.emod` for every non-zero divisor. -/
def syncGuard (a : WArgs) (i : Nat) : Bool :=
  ((i : Int) % a.sync_every_n_batch == 0) && decide (0 < i)

/-- One iteration of the batch loop of `train_on_server` (utils.py lines
675-704) for batch index `i`: record progress, then (when the guard holds)
publish the model, record `avg_loss[-1]` under key `i` (an `IndexError` on an
empty list), set `sync_completed = False` and `waiting_for_sync_dict[id] =
True`, poll `sync_completed` sleeping `args.wait_interval` each time, load the
merged model, re-create the optimizer unless `keep_optim_dict`, and finally run
one local optimization step appending its loss to `avg_loss`.  A zero
`sync_every_n_batch` raises `ZeroDivisionError` at the guard, as `batch_idx %
0` does (the progress write preceding the raise is not retained by this
embedding). -/
def processBatch (a : WArgs) (step : Nat → Model → Model × ℚ) (env : WorkerEnv)
    (L i : Nat) (loc : WLocal) (s : WShared) :
    Except String (WLocal × WShared × List WEvent) :=
  if a.sync_every_n_batch = 0 then .error ("ZeroDivisionError")
  else if syncGuard a i then
    if loc.avgLoss.isEmpty then .error ("IndexError")
    else
      .ok ({ model := (step i (env.merged loc.syncRound)).1,
             avgLoss := loc.avgLoss ++ [(step i (env.merged loc.syncRound)).2],
             syncRound := loc.syncRound + 1 },
           { s with progress := (i, L),
                    result := some loc.model,
                    lossEntries := dictInsert (LossKey.batch i)
                      (loc.avgLoss.getLastD 0) s.lossEntries,
                    waitingEntry := some true,
                    syncCompleted := true },
           [WEvent.progressW i L, WEvent.publishModel loc.model,
            WEvent.recordLoss (LossKey.batch i) (loc.avgLoss.getLastD 0),
            WEvent.setSyncCompleted false, WEvent.setWaiting true]
           ++ List.replicate (env.polls loc.syncRound)
                (WEvent.pollSleep a.wait_interval)
           ++ [WEvent.loadMerged (env.merged loc.syncRound)]
           ++ (if a.keep_optim_dict then [] else [WEvent.reinitOptim])
           ++ [WEvent.localStep i])
  else
    .ok ({ loc with model := (step i loc.model).1,
                    avgLoss := loc.avgLoss ++ [(step i loc.model).2] },
         { s with progress := (i, L) },
         [WEvent.progressW i L, WEvent.localStep i])

/-- The whole `for batch_idx, ... in enumerate(train_loader)` loop of
`train_on_server`, processing the given batch indices in order. -/
def runBatches (a : WArgs) (step : Nat → Model → Model × ℚ) (env : WorkerEnv)
    (L : Nat) : List Nat → WLocal → WShared →
    Except String (WLocal × WShared × List WEvent)
  | [], loc, s => .ok (loc, s, [])
  | i :: rest, loc, s =>
    match processBatch a step env L i loc s with
    | .error e => .error e
    | .ok (loc1, s1, evs) =>
      match runBatches a step env L rest loc1 s1 with
      | .error e => .error e
      | .ok (loc2, s2, evs') => .ok (loc2, s2, evs ++ evs')

/-- Completion tail of `train_on_server` (utils.py lines 705-711): publish the
final model unconditionally, record `np.mean(avg_loss)` under the `"final"`
key, set the final progress pair `(last_index + 1, L)`, and delete the worker's
`waiting_for_sync_dict` entry (`del` raises `KeyError` when absent). -/
def workerFinish (model : Model) (avgLoss : List ℚ) (lastIdx L : Nat)
    (s : WShared) : Except String (WShared × List WEvent) :=
  match s.waitingEntry with
  | none => .error ("KeyError")
  | some _ =>
    .ok ({ s with result := some model,
                  lossEntries := dictInsert LossKey.final
                    (avgLoss.sum / (avgLoss.length : ℚ)) s.lossEntries,
                  progress := (lastIdx + 1, L),
                  waitingEntry := none },
         [WEvent.publishModel model,
          WEvent.recordLoss LossKey.final (avgLoss.sum / (avgLoss.length : ℚ)),
          WEvent.progressW (lastIdx + 1) L, WEvent.deleteWaiting])

/-- `train_on_server` (utils.py lines 655-711) for a loader of `L` batches:
run the batch loop on indices `0..L-1`, then the completion tail with
`batch_idx = L - 1`.  An empty loader leaves `batch_idx` unbound and raises
`NameError` at the final progress write. -/
def train_on_server (a : WArgs) (step : Nat → Model → Model × ℚ)
    (env : WorkerEnv) (L : Nat) (m0 : Model) (s0 : WShared) :
    Except String (WShared × List WEvent) :=
  if L = 0 then .error ("NameError")
  else
    match runBatches a step env L (List.range L)
        { model := m0, avgLoss := [], syncRound := 0 } s0 with
    | .error e => .error e
    | .ok (loc, s, evs) =>
      match workerFinish loc.model loc.avgLoss (L - 1) L s with
      | .error e => .error e
      | .ok (s', evs') => .ok (s', evs ++ evs')

/-- Inputs of `Arguments.__init__` that its assertions and its federated block
read: the training mode, the configured optimizer and model names, the
command-line `train_federated` and `websockets` flags, and the `[federated]`
configuration values (with their config-file fallbacks already applied). -/
structure ArgsInput where
  mode : String
  optimizer : String
  model : String
  train_federated : Bool
  websockets : Bool
  sync_every_n_batch : Int
  wait_interval : ℚ
  weighted_averaging : Bool
  keep_optim_dict : Bool
deriving DecidableEq

/-- The federated configuration an `Arguments` object carries into
`train_federated`. -/
structure Args where
  sync_every_n_batch : Int
  wait_interval : ℚ
  weighted_averaging : Bool
  keep_optim_dict : Bool
deriving DecidableEq

/-- `Arguments.__init__` (utils.py lines 72-158) restricted to its failure
behaviour: the only checks are the `assert` statements on `mode` (line 73),
`optimizer` (line 94), `model` (line 99) and `websockets` (line 158), in that
order.  The `[federated]` block (lines 124-148) only reads configuration
values; no value of `sync_every_n_batch` or of the `weighted_averaging` flag
is ever rejected. -/
def argumentsInit (c : ArgsInput) : Except String Args :=
  if !(c.mode == "train" || c.mode == "inference") then
    .error ("AssertionError: no other mode known")
  else if !(c.optimizer == "SGD" || c.optimizer == "Adam") then
    .error ("AssertionError: Unknown optimizer")
  else if !(c.model == "simpleconv" || c.model == "resnet-18"
            || c.model == "vgg16") then
    .error ("AssertionError")
  else if c.websockets && !c.train_federated then
    .error ("AssertionError: If you use websockets it must be federated")
  else
    .ok { sync_every_n_batch := c.sync_every_n_batch,
          wait_interval := c.wait_interval,
          weighted_averaging := c.weighted_averaging,
          keep_optim_dict := c.keep_optim_dict }

/-! Helper lemmas shared by the claim theorems. -/

theorem dictLookup_dictInsert (k : LossKey) (v : ℚ) (d : List (LossKey × ℚ)) :
    dictLookup k (dictInsert k v d) = some v := by
  induction d with
  | nil => simp [dictInsert, dictLookup]
  | cons p rest ih =>
    by_cases h : p.1 = k
    · simp [dictInsert, dictLookup, h]
    · simp [dictInsert, dictLookup, h, ih]

theorem collectModels_length (rd : List (String × Option Model))
    (ms : List (String × Model)) (h : collectModels rd = .ok ms) :
    ms.length = rd.length := by
  induction rd generalizing ms with
  | nil =>
    simp [collectModels] at h
    simp [← h]
  | cons p rest ih =>
    match p with
    | (id, none) => simp [collectModels] at h
    | (id, some m) =>
      simp only [collectModels] at h
      cases hrec : collectModels rest with
      | error e => rw [hrec] at h; simp [Except.map] at h
      | ok ms' =>
        rw [hrec] at h
        simp [Except.map] at h
        subst h
        simp [ih ms' hrec]

theorem collectModels_all_some (rd : List (String × Option Model))
    (h : ∀ p ∈ rd, p.2.isSome) :
    ∃ ms, collectModels rd = .ok ms := by
  induction rd with
  | nil => exact ⟨[], rfl⟩
  | cons p rest ih =>
    match p, h p (by simp) with
    | (id, some m), _ =>
      obtain ⟨ms, hms⟩ := ih (fun q hq => h q (by simp [hq]))
      exact ⟨(id, m) :: ms, by simp [collectModels, hms, Except.map]⟩

/-! Claim theorems. -/

/-- C6: when a round resolves with exactly one submitted model in
`result_dict`, the synchronizer sets `sync_dict["model"]` to that single model
unchanged — no averaging is applied to a lone participant. -/
theorem single_model_identity (ws : List (String × ℚ)) (s : SyncState)
    (id : String) (m : Model) (h : s.result_dict = [(id, some m)]) :
    resolveRound ws s = .ok
      { s with
        merged := some m,
        waiting := s.waiting.map (fun p => (p.1, false)),
        sync_completed := true } := by
  simp [resolveRound, h]

/-- C6 witness: a concrete round with a single submitted model. -/
theorem single_model_identity_witness :
    resolveRound []
      { result_dict := [("A", some [2, 3])], waiting := [("A", true), ("B", false)],
        merged := none, sync_completed := false } = .ok
      { result_dict := [("A", some [2, 3])], waiting := [("A", false), ("B", false)],
        merged := some [2, 3], sync_completed := true } :=
  single_model_identity []
    { result_dict := [("A", some [2, 3])], waiting := [("A", true), ("B", false)],
      merged := none, sync_completed := false } ("A") [2, 3] rfl

/-- C7: when a round resolves with an empty `result_dict`, the synchronizer
skips aggregation (`pass`) and leaves the previously stored merged model
untouched; it still releases the barrier and sets `sync_completed`. -/
theorem zero_models_noop (ws : List (String × ℚ)) (s : SyncState)
    (h : s.result_dict = []) :
    resolveRound ws s = .ok
      { s with
        waiting := s.waiting.map (fun p => (p.1, false)),
        sync_completed := true } ∧
    (resolveRound ws s).map SyncState.merged = .ok s.merged := by
  constructor
  · simp [resolveRound, h]
  · simp [resolveRound, h, Except.map]

/-- C7 witness: a concrete empty round preserving the stored merged model. -/
theorem zero_models_noop_witness :
    resolveRound [("A", (1 : ℚ))]
      { result_dict := [], waiting := [], merged := some [7], sync_completed := false }
      = .ok { result_dict := [], waiting := [], merged := some [7], sync_completed := true } ∧
    (resolveRound [("A", (1 : ℚ))]
      { result_dict := [], waiting := [], merged := some [7], sync_completed := false }).map
        SyncState.merged = .ok (some [7]) :=
  zero_models_noop [("A", (1 : ℚ))]
    { result_dict := [], waiting := [], merged := some [7], sync_completed := false } rfl

/-- C10: `federated_avg` itself has no zero-input no-op: on an empty models
dict it raises `IndexError` when no weights are given (it indexes
`model_list[0]`), and returns `None` instead of a model when a non-empty
weights dict is given; the zero-input skip exists only in the synchronizer's
branch on `len(result_dict)`, which leaves the merged model unchanged. -/
theorem fedavg_empty_models_behavior :
    federated_avg [] none = .error ("IndexError") ∧
    (∀ ws : List (String × ℚ), ws ≠ [] → federated_avg [] (some ws) = .ok none) ∧
    (∀ (ws : List (String × ℚ)) (s : SyncState), s.result_dict = [] →
      (resolveRound ws s).map SyncState.merged = .ok s.merged) := by
  refine ⟨rfl, ?_, ?_⟩
  · intro ws hws
    cases ws with
    | nil => exact absurd rfl hws
    | cons w rest => rfl
  · intro ws s h
    simp [resolveRound, h, Except.map]

/-- C10 witness: concrete empty-models calls of `federated_avg` and a concrete
empty resolution round. -/
theorem fedavg_empty_models_witness :
    federated_avg [] (some [("A", (1 : ℚ))]) = .ok none ∧
    (resolveRound []
      { result_dict := [], waiting := [], merged := some [9], sync_completed := false }).map
        SyncState.merged = .ok (some [9]) :=
  ⟨fedavg_empty_models_behavior.2.1 [("A", (1 : ℚ))] (by simp),
   fedavg_empty_models_behavior.2.2 []
     { result_dict := [], waiting := [], merged := some [9], sync_completed := false } rfl⟩

/-- C5: with weighted averaging enabled the weight of the worker at each
position equals its batch count divided by the total batch count, and with it
disabled every weight is `1/N`; in the concrete probe scenario, worker A with
300 batches gets weight 3/4, worker B with 100 batches gets 1/4, and merging a
probe parameter of 2.0 at A with 0.0 at B through `federated_avg` yields 1.5. -/
theorem weight_policy_and_probe :
    (∀ (counts : List (String × Nat)) (i : Nat),
      (computeWDict counts true)[i]? = (counts[i]?).map
        (fun p => (p.1, (p.2 : ℚ) / (((counts.map (fun q => q.2)).sum : Nat) : ℚ)))) ∧
    (∀ (counts : List (String × Nat)) (i : Nat),
      (computeWDict counts false)[i]? = (counts[i]?).map
        (fun p => (p.1, 1 / (counts.length : ℚ)))) ∧
    computeWDict [("A", 300), ("B", 100)] true = [("A", 3 / 4), ("B", 1 / 4)] ∧
    federated_avg [("A", [2]), ("B", [0])]
        (some (computeWDict [("A", 300), ("B", 100)] true)) = .ok (some [3 / 2]) := by
  refine ⟨?_, ?_, ?_, ?_⟩
  · intro counts i; simp [computeWDict]
  · intro counts i; simp [computeWDict]
  · simp [computeWDict]
    norm_num
  · simp [federated_avg, computeWDict, weightsTruthy, fedAvgWeightedLoop,
      lookupWeight, scale_model, add_model]
    norm_num

/-- Shared state for the C1 counterexample: worker B has finished (its
`waiting_for_sync_dict` entry was deleted), worker A is the only id with a
true waiting flag, yet both models are still in `result_dict`. -/
def sC1CE : SyncState :=
  { result_dict := [("A", some [2]), ("B", some [0])],
    waiting := [("A", true)], merged := none, sync_completed := false }

/-- C1 counterexample: at `sC1CE` exactly one id has `waiting[id] == true`,
but the resolution pass merges both `result_dict` entries with the unrestricted
epoch weights `1/2, 1/2`, producing `[1]`; merging only the waiting worker's
model with its weight renormalized to 1, as the claim states, would produce
`[2]`. -/
theorem merge_ignores_waiting_flags :
    (resolveRound [("A", (1 : ℚ) / 2), ("B", (1 : ℚ) / 2)] sC1CE).map
      SyncState.merged = .ok (some [1]) ∧
    (sC1CE.waiting.filter (fun p => p.2)).length = 1 ∧
    sC1CE.result_dict.length = 2 ∧
    some [(1 : ℚ)] ≠ some [(2 : ℚ)] := by
  refine ⟨?_, rfl, rfl, by norm_num⟩
  simp [resolveRound, sC1CE, collectModels, federated_avg, weightsTruthy,
    fedAvgWeightedLoop, lookupWeight, scale_model, add_model, Except.map]

/-- C1 amended: a resolution pass with at least two `result_dict` entries
merges exactly the models of all workers present in `result_dict` (which is
initialized for every worker and never cleared), with the configured weights
passed through unrestricted and unrenormalized; the outcome is independent of
the waiting flags, and the number of entries handed to `federated_avg` equals
the size of `result_dict`, not the number of true waiting flags. -/
theorem merge_uses_all_submitted (ws : List (String × ℚ)) (s : SyncState)
    (waiting' : List (String × Bool)) (h2 : 2 ≤ s.result_dict.length) :
    (resolveRound ws s).map SyncState.merged =
      (collectModels s.result_dict).bind (fun ms => federated_avg ms (some ws)) ∧
    (resolveRound ws { s with waiting := waiting' }).map SyncState.merged =
      (resolveRound ws s).map SyncState.merged ∧
    ((collectModels s.result_dict).map List.length = .ok s.result_dict.length ∨
      ∃ e, collectModels s.result_dict = .error e) := by
  have h1 : (s.result_dict.length == 1) = false :=
    beq_eq_false_iff_ne.mpr (by omega)
  have h0 : (s.result_dict.length == 0) = false :=
    beq_eq_false_iff_ne.mpr (by omega)
  refine ⟨?_, ?_, ?_⟩
  · simp only [resolveRound, h1, h0, Bool.false_eq_true, if_false]
    cases hc : collectModels s.result_dict with
    | error e => simp [Except.map, Except.bind, hc]
    | ok ms =>
      cases hf : federated_avg ms (some ws) with
      | error e => simp [Except.map, Except.bind, hc, hf]
      | ok avg => simp [Except.map, Except.bind, hc, hf]
  · simp only [resolveRound, h1, h0, Bool.false_eq_true, if_false]
    cases hc : collectModels s.result_dict with
    | error e => simp [Except.map, hc]
    | ok ms =>
      cases hf : federated_avg ms (some ws) with
      | error e => simp [Except.map, hc, hf]
      | ok avg => simp [Except.map, hc, hf]
  · cases hc : collectModels s.result_dict with
    | error e => exact Or.inr ⟨e, rfl⟩
    | ok ms =>
      exact Or.inl (by simp [Except.map, collectModels_length s.result_dict ms hc])

/-- C1 witness: the amended statement evaluated at the counterexample state
with a different waiting map. -/
theorem merge_uses_all_submitted_witness :
    (resolveRound [("A", (1 : ℚ) / 2), ("B", (1 : ℚ) / 2)] sC1CE).map
      SyncState.merged =
      (collectModels sC1CE.result_dict).bind
        (fun ms => federated_avg ms (some [("A", (1 : ℚ) / 2), ("B", (1 : ℚ) / 2)])) ∧
    (resolveRound [("A", (1 : ℚ) / 2), ("B", (1 : ℚ) / 2)]
        { sC1CE with waiting := [("A", false), ("B", true)] }).map SyncState.merged =
      (resolveRound [("A", (1 : ℚ) / 2), ("B", (1 : ℚ) / 2)] sC1CE).map
        SyncState.merged := by
  have h := merge_uses_all_submitted [("A", (1 : ℚ) / 2), ("B", (1 : ℚ) / 2)]
    sC1CE [("A", false), ("B", true)] (by decide)
  exact ⟨h.1, h.2.1⟩

/-- Environment for the C2 counterexample: the stop flag is set from read 1
onwards while worker A's flag is the only (true) entry of the waiting dict. -/
def envC2CE : CoordEnv :=
  { stop := fun t => decide (1 ≤ t), waiting := fun _ => [("A", true)] }

/-- Shared state for the C2 counterexample: only A is still waiting, but
`result_dict` still holds B's last model. -/
def sC2CE : SyncState :=
  { result_dict := [("A", some [4]), ("B", some [0])],
    waiting := [("A", true)], merged := none, sync_completed := false }

/-- C2 counterexample: with the stop flag set, the coordinator in its wait
loop does exit, perform exactly one more resolution pass and halt — but that
final pass does not use only the ids that are still waiting: at `sC2CE`, where
A is the sole waiting id, it merges B's model too and yields `[2]` instead of
A's model `[4]`. -/
theorem final_pass_not_restricted_to_waiting :
    (coordRun (1 / 10) envC2CE 3
      { pc := CoordPC.innerCheck, t := 1, res := 0, sleeps := [] }).pc
        = CoordPC.halted ∧
    (coordRun (1 / 10) envC2CE 3
      { pc := CoordPC.innerCheck, t := 1, res := 0, sleeps := [] }).res = 1 ∧
    (resolveRound [("A", (1 : ℚ) / 2), ("B", (1 : ℚ) / 2)] sC2CE).map
      SyncState.merged = .ok (some [2]) ∧
    some [(2 : ℚ)] ≠ some [(4 : ℚ)] := by
  refine ⟨rfl, rfl, ?_, by norm_num⟩
  simp [resolveRound, sC2CE, collectModels, federated_avg, weightsTruthy,
    fedAvgWeightedLoop, lookupWeight, scale_model, add_model, Except.map]
  norm_num

/-- C2 amended: for every environment (hence every sequence of worker
completion times and every evolution of the waiting map) in which the stop
flag, once true, stays true: from the wait loop the coordinator performs
exactly one more resolution pass and halts within three steps, and from any
point of its loop it halts within three steps — it never runs forever after
the stop flag is set.  (The final pass merges the models in `result_dict`
regardless of which ids are still waiting.) -/
theorem coordinator_terminates_after_stop (w : ℚ) (env : CoordEnv) (c : CState)
    (hm : ∀ t, env.stop t = true → env.stop (t + 1) = true)
    (hs : env.stop c.t = true) :
    (c.pc = CoordPC.innerCheck →
      (coordRun w env 3 c).pc = CoordPC.halted ∧
      (coordRun w env 3 c).res = c.res + 1) ∧
    ∃ k, k ≤ 3 ∧ (coordRun w env k c).pc = CoordPC.halted := by
  have hs1 : env.stop (c.t + 1) = true := hm c.t hs
  have hs2 : env.stop (c.t + 1 + 1) = true := hm (c.t + 1) hs1
  cases hpc : c.pc with
  | outerCheck =>
    refine ⟨fun hin => absurd hin (by simp), 1, by omega, ?_⟩
    simp [coordRun, coordStep, hpc, hs]
  | innerCheck =>
    refine ⟨fun _ => ⟨?_, ?_⟩, 3, by omega, ?_⟩ <;>
      simp [coordRun, coordStep, hpc, hs, hs2]
  | resolveStep =>
    refine ⟨fun hin => absurd hin (by simp), 2, by omega, ?_⟩
    simp [coordRun, coordStep, hpc, hs1]
  | halted =>
    refine ⟨fun hin => absurd hin (by simp), 0, by omega, ?_⟩
    simp [coordRun, hpc]

/-- C2 witness: the amended statement evaluated with the stop flag constantly
true and the coordinator inside its wait loop. -/
theorem coordinator_terminates_witness :
    (coordRun (1 / 10) { stop := fun _ => true, waiting := fun _ => [] } 3
      { pc := CoordPC.innerCheck, t := 0, res := 0, sleeps := [] }).pc
        = CoordPC.halted ∧
    (coordRun (1 / 10) { stop := fun _ => true, waiting := fun _ => [] } 3
      { pc := CoordPC.innerCheck, t := 0, res := 0, sleeps := [] }).res = 0 + 1 := by
  have h := coordinator_terminates_after_stop (1 / 10)
    { stop := fun _ => true, waiting := fun _ => [] }
    { pc := CoordPC.innerCheck, t := 0, res := 0, sleeps := [] }
    (fun _ h => h) rfl
  exact h.1 rfl

/-- C8: the sleep executed between successive checks of the coordinator's wait
loop is always the literal `0.1` seconds, whatever `wait_interval` was
configured: every duration ever appended to the sleep log of a `synchronizer`
run is `1/10`. -/
theorem coordinator_sleep_is_hardcoded (w : ℚ) (env : CoordEnv) (k : Nat)
    (c : CState) (h : ∀ d ∈ c.sleeps, d = 1 / 10) :
    ∀ d ∈ (coordRun w env k c).sleeps, d = 1 / 10 := by
  induction k generalizing c with
  | zero => exact h
  | succ k ih =>
    refine ih (coordStep w env c) ?_
    intro d hd
    have hstep : d ∈ c.sleeps ∨ d = 1 / 10 := by
      cases hpc : c.pc with
      | outerCheck =>
        simp only [coordStep, hpc] at hd
        split at hd <;> exact Or.inl hd
      | innerCheck =>
        simp only [coordStep, hpc] at hd
        split at hd
        · exact Or.inl hd
        · simp only [List.mem_append, List.mem_singleton] at hd
          exact hd
      | resolveStep =>
        simp only [coordStep, hpc] at hd
        exact Or.inl hd
      | halted =>
        simp only [coordStep, hpc] at hd
        exact Or.inl hd
    cases hstep with
    | inl hmem => exact h d hmem
    | inr heq => exact heq

/-- Environment for the C8 witness: stop stays false and worker A is present
with a false flag, so the coordinator's wait loop keeps polling. -/
def envC8W : CoordEnv :=
  { stop := fun _ => false, waiting := fun _ => [("A", false)] }

/-- C8 witness: with configured `wait_interval = 1/5` the wait loop still
records a sleep of `1/10`, and `1/5` is not `1/10`. -/
theorem coordinator_sleep_witness :
    ((1 : ℚ) / 10) ∈ (coordRun (1 / 5) envC8W 2
      { pc := CoordPC.innerCheck, t := 0, res := 0, sleeps := [] }).sleeps ∧
    ((1 : ℚ) / 10) = 1 / 10 ∧ ¬ ((1 : ℚ) / 5 = 1 / 10) := by
  have hmem : ((1 : ℚ) / 10) ∈ (coordRun (1 / 5) envC8W 2
      { pc := CoordPC.innerCheck, t := 0, res := 0, sleeps := [] }).sleeps := by
    simp [coordRun, coordStep, envC8W, allWaitingTrue]
  refine ⟨hmem, ?_, by norm_num⟩
  exact coordinator_sleep_is_hardcoded (1 / 5) envC8W 2
    { pc := CoordPC.innerCheck, t := 0, res := 0, sleeps := [] }
    (by simp) ((1 : ℚ) / 10) hmem

/-- C3: with a non-zero sync interval and the loop invariant that `avg_loss`
holds one entry per completed batch, a worker batch is a synchronization point
exactly when `i > 0` and `i mod syncInterval == 0`, and at such a batch the
worker performs, in order: publish its current model to its `result_dict`
entry, record its latest loss under key `i` in its `loss_dict` entry, set
`sync_completed` to false, set its waiting flag to true, poll-sleep until
`sync_completed` is observed true, and adopt the merged model from
`sync_dict` before its local step. -/
theorem worker_sync_point_behavior (a : WArgs) (step : Nat → Model → Model × ℚ)
    (env : WorkerEnv) (L i : Nat) (loc : WLocal) (s : WShared)
    (hn : a.sync_every_n_batch ≠ 0) (hlen : loc.avgLoss.length = i) :
    (syncGuard a i = true ↔
      ∃ out, processBatch a step env L i loc s = .ok out ∧
        WEvent.setWaiting true ∈ out.2.2) ∧
    (syncGuard a i = true →
      processBatch a step env L i loc s = .ok
        ({ model := (step i (env.merged loc.syncRound)).1,
           avgLoss := loc.avgLoss ++ [(step i (env.merged loc.syncRound)).2],
           syncRound := loc.syncRound + 1 },
         { s with
           progress := (i, L),
           result := some loc.model,
           lossEntries := dictInsert (LossKey.batch i)
             (loc.avgLoss.getLastD 0) s.lossEntries,
           waitingEntry := some true,
           syncCompleted := true },
         [WEvent.progressW i L, WEvent.publishModel loc.model,
          WEvent.recordLoss (LossKey.batch i) (loc.avgLoss.getLastD 0),
          WEvent.setSyncCompleted false, WEvent.setWaiting true]
         ++ List.replicate (env.polls loc.syncRound)
              (WEvent.pollSleep a.wait_interval)
         ++ [WEvent.loadMerged (env.merged loc.syncRound)]
         ++ (if a.keep_optim_dict then [] else [WEvent.reinitOptim])
         ++ [WEvent.localStep i])) := by
  have hmain : syncGuard a i = true →
      processBatch a step env L i loc s = .ok
        ({ model := (step i (env.merged loc.syncRound)).1,
           avgLoss := loc.avgLoss ++ [(step i (env.merged loc.syncRound)).2],
           syncRound := loc.syncRound + 1 },
         { s with
           progress := (i, L),
           result := some loc.model,
           lossEntries := dictInsert (LossKey.batch i)
             (loc.avgLoss.getLastD 0) s.lossEntries,
           waitingEntry := some true,
           syncCompleted := true },
         [WEvent.progressW i L, WEvent.publishModel loc.model,
          WEvent.recordLoss (LossKey.batch i) (loc.avgLoss.getLastD 0),
          WEvent.setSyncCompleted false, WEvent.setWaiting true]
         ++ List.replicate (env.polls loc.syncRound)
              (WEvent.pollSleep a.wait_interval)
         ++ [WEvent.loadMerged (env.merged loc.syncRound)]
         ++ (if a.keep_optim_dict then [] else [WEvent.reinitOptim])
         ++ [WEvent.localStep i]) := by
    intro hg
    have hi : 0 < i := of_decide_eq_true ((Bool.and_eq_true _ _).mp hg).2
    have hnil : loc.avgLoss ≠ [] := by
      intro h0
      rw [h0] at hlen
      simp at hlen
      omega
    have hne : loc.avgLoss.isEmpty = false := by
      cases hl : loc.avgLoss with
      | nil => exact absurd hl hnil
      | cons x xs => rfl
    simp [processBatch, hn, hg, hne]
  refine ⟨⟨fun hg => ⟨_, hmain hg, by simp⟩, ?_⟩, hmain⟩
  rintro ⟨out, hout, hmem⟩
  by_contra hng
  have hgf : syncGuard a i = false := Bool.not_eq_true _ ▸ hng
  rw [processBatch, if_neg hn] at hout
  rw [hgf] at hout
  simp only [Bool.false_eq_true, if_false, Except.ok.injEq] at hout
  rw [← hout] at hmem
  simp at hmem

/-- Concrete configuration for the C3 witness: sync every 2 batches. -/
def aC3W : WArgs :=
  { sync_every_n_batch := 2, wait_interval := 1 / 10, keep_optim_dict := false }

/-- Concrete local optimization step for the C3 witness. -/
def stepC3W : Nat → Model → Model × ℚ :=
  fun i m => (m.map (fun x => x + 1), (i : ℚ))

/-- Concrete environment for the C3 witness: the merged model is `[5]` and one
failed poll precedes each wake-up. -/
def envC3W : WorkerEnv := { merged := fun _ => [5], polls := fun _ => 1 }

/-- Concrete worker-local state for the C3 witness, after two batches. -/
def locC3W : WLocal := { model := [7], avgLoss := [1, 2], syncRound := 0 }

/-- C3 witness: the synchronization behaviour at batch index 2 with sync
interval 2, evaluated concretely. -/
theorem worker_sync_point_witness :
    processBatch aC3W stepC3W envC3W 4 2 locC3W (initWorkerShared 4) = .ok
      ({ model := (stepC3W 2 (envC3W.merged locC3W.syncRound)).1,
         avgLoss := locC3W.avgLoss ++ [(stepC3W 2 (envC3W.merged locC3W.syncRound)).2],
         syncRound := locC3W.syncRound + 1 },
       { initWorkerShared 4 with
         progress := (2, 4),
         result := some locC3W.model,
         lossEntries := dictInsert (LossKey.batch 2)
           (locC3W.avgLoss.getLastD 0) (initWorkerShared 4).lossEntries,
         waitingEntry := some true,
         syncCompleted := true },
       [WEvent.progressW 2 4, WEvent.publishModel locC3W.model,
        WEvent.recordLoss (LossKey.batch 2) (locC3W.avgLoss.getLastD 0),
        WEvent.setSyncCompleted false, WEvent.setWaiting true]
       ++ List.replicate (envC3W.polls locC3W.syncRound)
            (WEvent.pollSleep aC3W.wait_interval)
       ++ [WEvent.loadMerged (envC3W.merged locC3W.syncRound)]
       ++ (if aC3W.keep_optim_dict then [] else [WEvent.reinitOptim])
       ++ [WEvent.localStep 2]) :=
  (worker_sync_point_behavior aC3W stepC3W envC3W 4 2 locC3W
    (initWorkerShared 4) (by decide) rfl).2 (by decide)

/-- C4: after its last batch index `lastIdx`, a worker whose waiting entry is
still present unconditionally publishes its final model, records the
arithmetic mean of all its recorded per-batch losses under the `"final"` key
(where it is then readable), sets its final progress pair, and deletes its
waiting entry entirely — the entry becomes absent, which is distinct from a
transient false flag. -/
theorem worker_completion (model : Model) (avgLoss : List ℚ) (lastIdx L : Nat)
    (s : WShared) (hw : s.waitingEntry.isSome = true) :
    workerFinish model avgLoss lastIdx L s = .ok
      ({ s with
         result := some model,
         lossEntries := dictInsert LossKey.final
           (avgLoss.sum / (avgLoss.length : ℚ)) s.lossEntries,
         progress := (lastIdx + 1, L),
         waitingEntry := none },
       [WEvent.publishModel model,
        WEvent.recordLoss LossKey.final (avgLoss.sum / (avgLoss.length : ℚ)),
        WEvent.progressW (lastIdx + 1) L, WEvent.deleteWaiting]) ∧
    dictLookup LossKey.final
      (dictInsert LossKey.final (avgLoss.sum / (avgLoss.length : ℚ)) s.lossEntries)
      = some (avgLoss.sum / (avgLoss.length : ℚ)) ∧
    (none : Option Bool) ≠ some false := by
  obtain ⟨b, hb⟩ := Option.isSome_iff_exists.mp hw
  exact ⟨by simp [workerFinish, hb], dictLookup_dictInsert _ _ _, by simp⟩

/-- Concrete shared slice for the C4 witness: one earlier loss entry, waiting
flag present (false). -/
def sC4W : WShared :=
  { result := some [1], lossEntries := [(LossKey.batch 2, 5)], progress := (2, 3),
    waitingEntry := some false, syncCompleted := true }

/-- C4 witness: worker completion evaluated concretely (mean of `[1, 3]` is
recorded under the final key, waiting entry removed). -/
theorem worker_completion_witness :
    workerFinish [4] [1, 3] 2 3 sC4W = .ok
      ({ sC4W with
         result := some [4],
         lossEntries := dictInsert LossKey.final
           (([1, 3] : List ℚ).sum / (([1, 3] : List ℚ).length : ℚ)) sC4W.lossEntries,
         progress := (2 + 1, 3),
         waitingEntry := none },
       [WEvent.publishModel [4],
        WEvent.recordLoss LossKey.final
          (([1, 3] : List ℚ).sum / (([1, 3] : List ℚ).length : ℚ)),
        WEvent.progressW (2 + 1) 3, WEvent.deleteWaiting]) ∧
    dictLookup LossKey.final
      (dictInsert LossKey.final
        (([1, 3] : List ℚ).sum / (([1, 3] : List ℚ).length : ℚ)) sC4W.lossEntries)
      = some (([1, 3] : List ℚ).sum / (([1, 3] : List ℚ).length : ℚ)) ∧
    (none : Option Bool) ≠ some false :=
  worker_completion [4] [1, 3] 2 3 sC4W rfl

/-- Configuration for the C9 counterexample: a federated training run with
the non-positive sync interval 0 and otherwise valid values. -/
def cfgC9CE : ArgsInput :=
  { mode := "train", optimizer := "SGD", model := "simpleconv",
    train_federated := true, websockets := false, sync_every_n_batch := 0,
    wait_interval := 1 / 10, weighted_averaging := false,
    keep_optim_dict := false }

/-- C9 counterexample: `Arguments.__init__` accepts the non-positive sync
interval 0 without raising any configuration error at orchestration start;
instead, the worker loop raises `ZeroDivisionError` at its very first batch,
during the epoch. -/
theorem config_zero_interval_accepted :
    (argumentsInit cfgC9CE).isOk = true ∧
    processBatch { sync_every_n_batch := 0, wait_interval := 1 / 10,
                   keep_optim_dict := false }
      (fun _ m => (m, 1)) { merged := fun _ => [], polls := fun _ => 0 } 1 0
      { model := [0], avgLoss := [], syncRound := 0 } (initWorkerShared 1)
      = .error ("ZeroDivisionError") :=
  ⟨rfl, rfl⟩

/-- C9 amended: no validation of the synchronization interval (or of the
boolean weighting flag) happens at orchestration start — whether
`Arguments.__init__` succeeds is independent of the configured
`sync_every_n_batch` — and a zero interval only fails later, inside the worker
batch loop, with a `ZeroDivisionError` at the guard of the first batch. -/
theorem config_validation_ignores_sync_interval (c : ArgsInput) (n n' : Int) :
    ((argumentsInit { c with sync_every_n_batch := n }).isOk =
      (argumentsInit { c with sync_every_n_batch := n' }).isOk) ∧
    (∀ (a : WArgs) (step : Nat → Model → Model × ℚ) (env : WorkerEnv)
        (L i : Nat) (loc : WLocal) (s : WShared),
      a.sync_every_n_batch = 0 →
        processBatch a step env L i loc s = .error ("ZeroDivisionError")) := by
  constructor
  · simp only [argumentsInit]
    split_ifs <;> rfl
  · intro a step env L i loc s h0
    simp [processBatch, h0]

/-- C9 witness: the amended statement evaluated at a concrete configuration
with intervals -3 and 10, and at a concrete worker state with interval 0. -/
theorem config_validation_witness :
    ((argumentsInit { cfgC9CE with sync_every_n_batch := -3 }).isOk =
      (argumentsInit { cfgC9CE with sync_every_n_batch := 10 }).isOk) ∧
    processBatch { sync_every_n_batch := 0, wait_interval := 1 / 5,
                   keep_optim_dict := true }
      (fun _ m => (m, 2)) { merged := fun _ => [3], polls := fun _ => 1 } 5 3
      { model := [1], avgLoss := [2], syncRound := 0 } (initWorkerShared 5)
      = .error ("ZeroDivisionError") :=
  ⟨(config_validation_ignores_sync_interval cfgC9CE (-3) 10).1,
   (config_validation_ignores_sync_interval cfgC9CE (-3) 10).2
     { sync_every_n_batch := 0, wait_interval := 1 / 5, keep_optim_dict := true }
     (fun _ m => (m, 2)) { merged := fun _ => [3], polls := fun _ => 1 } 5 3
     { model := [1], avgLoss := [2], syncRound := 0 } (initWorkerShared 5) rfl⟩

end Torchlib
